import Mathlib

/-!
Shallow embedding of the `zenith::vault_core` and `zenith::funding_arbitrage`
Move modules, together with theorems checking the natural-language
specification against them.

Conventions of the embedding:
* Move `u64` values are `Nat`s; every arithmetic step of the source that can
  abort (addition/multiplication overflow past `U64MAX`, subtraction below
  zero, division by zero) is modelled by an explicit check that aborts.
* Move global storage (`move_to` / `exists` / `borrow_global`) is modelled by
  option-valued maps from account addresses (`Nat`).  `Vault<CoinType>` is
  keyed by the pair (address, coin type index) since distinct coin types give
  distinct resources at the same address; `UserPosition`, `VaultRegistry`,
  `VaultEventHandle` and the arbitrage resources are not generic and are keyed
  by address alone, exactly as in the source.
* An operation is a function `State → StepRes State`; `StepRes.aborted e s`
  records the abort reason and the storage contents at the abort point, in the
  order the source performs its checks and mutations (the Move VM then
  discards that state, but carrying it lets us prove which aborts can observe
  partial mutations).
* `timestamp::now_seconds()` is passed in as an explicit `now` argument.
-/

namespace Zenith

/-- Largest value of a Move `u64`. -/
def U64MAX : Nat := 18446744073709551615

/-! Error codes of `vault_core`. -/

def E_NOT_AUTHORIZED : Nat := 1
def E_VAULT_NOT_FOUND : Nat := 2
def E_INSUFFICIENT_BALANCE : Nat := 3
def E_INVALID_AMOUNT : Nat := 4
def E_VAULT_PAUSED : Nat := 5
def E_PRICE_STALE : Nat := 6
def E_REBALANCE_TOO_SOON : Nat := 7

/-! Strategy types of `vault_core`. -/

def STRATEGY_CLMM : Nat := 1
def STRATEGY_DELTA_NEUTRAL : Nat := 2
def STRATEGY_ARBITRAGE : Nat := 3
def STRATEGY_FUNDING_RATE_ARB : Nat := 4

/-- Abort reasons: `code e` is an `assert!(_, e)` failure; the others are the
Move VM's own aborts (absent resource on `borrow_global`, resource already
present on `move_to`, and the three arithmetic aborts). -/
inductive Err where
  | code : Nat → Err
  | missing : Err
  | alreadyExists : Err
  | divByZero : Err
  | overflow : Err
  | underflow : Err
deriving DecidableEq

/-- Result of one entry-point call: success with the new storage, or an abort
carrying the reason and the storage contents at the abort point. -/
inductive StepRes (σ : Type) where
  | ok : σ → StepRes σ
  | aborted : Err → σ → StepRes σ

/-- The storage contents reached by a call, whether it succeeded or aborted. -/
def resState {σ : Type} : StepRes σ → σ
  | .ok s => s
  | .aborted _ s => s

/-- Whether a call succeeded. -/
def isOk {σ : Type} : StepRes σ → Bool
  | .ok _ => true
  | .aborted _ _ => false

/-- Apply a state transformation uniformly to the outcome of a call. -/
def mapSt {σ : Type} (f : σ → σ) : StepRes σ → StepRes σ
  | .ok s => .ok (f s)
  | .aborted e s => .aborted e (f s)

/-- Point update of an address-keyed storage map. -/
def upd {α : Type} (f : Nat → Option α) (k : Nat) (v : α) : Nat → Option α :=
  fun x => if x = k then some v else f x

/-- Point update of an (address, coin-type)-keyed storage map. -/
def upd2 {α : Type} (f : Nat → Nat → Option α) (a c : Nat) (v : α) :
    Nat → Nat → Option α :=
  fun x y => if x = a ∧ y = c then some v else f x y

/-- The abort reason of a call, if it aborted. -/
def errOf {σ : Type} : StepRes σ → Option Err
  | .ok _ => none
  | .aborted e _ => some e

/-! Data model of `vault_core`, field for field. -/

structure Vault where
  vault_id : Nat
  strategy_type : Nat
  total_shares : Nat
  total_assets : Nat
  performance_fee : Nat
  management_fee : Nat
  last_harvest : Nat
  last_rebalance : Nat
  rebalance_interval : Nat
  target_leverage : Nat
  max_slippage : Nat
  paused : Bool
  admin : Nat
  protocol_integration : List Nat
deriving DecidableEq

structure UserPosition where
  vault_id : Nat
  shares : Nat
  deposited_at : Nat
deriving DecidableEq

structure VaultRegistry where
  next_vault_id : Nat
  vault_count : Nat
deriving DecidableEq

structure DepositEvent where
  vault_id : Nat
  user : Nat
  amount : Nat
  shares : Nat
  timestamp : Nat
deriving DecidableEq

structure WithdrawEvent where
  vault_id : Nat
  user : Nat
  amount : Nat
  shares : Nat
  timestamp : Nat
deriving DecidableEq

structure HarvestEvent where
  vault_id : Nat
  profit : Nat
  timestamp : Nat
deriving DecidableEq

structure VaultEventHandle where
  deposit_events : List DepositEvent
  withdraw_events : List WithdrawEvent
  harvest_events : List HarvestEvent
deriving DecidableEq

/-- The whole storage the `vault_core` module can touch. -/
structure VaultState where
  vaults : Nat → Nat → Option Vault
  positions : Nat → Option UserPosition
  registries : Nat → Option VaultRegistry
  handles : Nat → Option VaultEventHandle

/-- `vault_core::create_vault<CoinType>`: reads the registry at the admin's
address, stores the fresh vault under (admin, coin), then bumps the counters
(in the source's order: `move_to` first, the two increments after). -/
def create_vault (s : VaultState)
    (admin coin strategy_type performance_fee management_fee
     rebalance_interval target_leverage max_slippage now : Nat) :
    StepRes VaultState :=
  match s.registries admin with
  | none => .aborted .missing s
  | some reg =>
    match s.vaults admin coin with
    | some _ => .aborted .alreadyExists s
    | none =>
      let v : Vault :=
        { vault_id := reg.next_vault_id
          strategy_type := strategy_type
          total_shares := 0
          total_assets := 0
          performance_fee := performance_fee
          management_fee := management_fee
          last_harvest := now
          last_rebalance := now
          rebalance_interval := rebalance_interval
          target_leverage := target_leverage
          max_slippage := max_slippage
          paused := false
          admin := admin
          protocol_integration := [] }
      let s1 : VaultState := { s with vaults := upd2 s.vaults admin coin v }
      if U64MAX < reg.next_vault_id + 1 then .aborted .overflow s1
      else
        let reg1 : VaultRegistry := { reg with next_vault_id := reg.next_vault_id + 1 }
        let s2 : VaultState := { s1 with registries := upd s1.registries admin reg1 }
        if U64MAX < reg.vault_count + 1 then .aborted .overflow s2
        else
          let reg2 : VaultRegistry :=
            { reg with next_vault_id := reg.next_vault_id + 1
                       vault_count := reg.vault_count + 1 }
          .ok { s2 with registries := upd s2.registries admin reg2 }

/-- Tail of `vault_core::deposit` after the minted share count is known:
update the vault totals (in source order, so the assets overflow abort sees
the shares already written), then the caller's position, then emit. -/
def depositRest (s : VaultState) (v : Vault)
    (user vault_addr coin amount shares now : Nat) : StepRes VaultState :=
  if U64MAX < v.total_shares + shares then .aborted .overflow s
  else
    let v1 : Vault := { v with total_shares := v.total_shares + shares }
    let s1 : VaultState := { s with vaults := upd2 s.vaults vault_addr coin v1 }
    if U64MAX < v.total_assets + amount then .aborted .overflow s1
    else
      let v2 : Vault :=
        { v with total_shares := v.total_shares + shares
                 total_assets := v.total_assets + amount }
      let s2 : VaultState := { s with vaults := upd2 s.vaults vault_addr coin v2 }
      let ev : DepositEvent :=
        { vault_id := v.vault_id, user := user, amount := amount
          shares := shares, timestamp := now }
      match s2.positions user with
      | none =>
        let p1 : UserPosition :=
          { vault_id := v.vault_id, shares := shares, deposited_at := now }
        let s3 : VaultState := { s2 with positions := upd s2.positions user p1 }
        match s3.handles vault_addr with
        | none => .aborted .missing s3
        | some h =>
          let h1 : VaultEventHandle :=
            { h with deposit_events := h.deposit_events ++ [ev] }
          .ok { s3 with handles := upd s3.handles vault_addr h1 }
      | some p =>
        if U64MAX < p.shares + shares then .aborted .overflow s2
        else
          let p1 : UserPosition := { p with shares := p.shares + shares }
          let s3 : VaultState := { s2 with positions := upd s2.positions user p1 }
          match s3.handles vault_addr with
          | none => .aborted .missing s3
          | some h =>
            let h1 : VaultEventHandle :=
              { h with deposit_events := h.deposit_events ++ [ev] }
            .ok { s3 with handles := upd s3.handles vault_addr h1 }

/-- `vault_core::deposit<CoinType>`. -/
def deposit (s : VaultState) (user vault_addr coin amount now : Nat) :
    StepRes VaultState :=
  if amount = 0 then .aborted (.code E_INVALID_AMOUNT) s
  else
    match s.vaults vault_addr coin with
    | none => .aborted .missing s
    | some v =>
      if v.paused then .aborted (.code E_VAULT_PAUSED) s
      else if v.total_shares = 0 then
        depositRest s v user vault_addr coin amount amount now
      else if U64MAX < amount * v.total_shares then .aborted .overflow s
      else if v.total_assets = 0 then .aborted .divByZero s
      else
        depositRest s v user vault_addr coin amount
          (amount * v.total_shares / v.total_assets) now

/-- `vault_core::withdraw<CoinType>`. -/
def withdraw (s : VaultState) (user vault_addr coin shares now : Nat) :
    StepRes VaultState :=
  match s.positions user with
  | none => .aborted (.code E_INSUFFICIENT_BALANCE) s
  | some p =>
    if p.shares < shares then .aborted (.code E_INSUFFICIENT_BALANCE) s
    else
      match s.vaults vault_addr coin with
      | none => .aborted .missing s
      | some v =>
        if U64MAX < shares * v.total_assets then .aborted .overflow s
        else if v.total_shares = 0 then .aborted .divByZero s
        else
          let amount := shares * v.total_assets / v.total_shares
          if v.total_shares < shares then .aborted .underflow s
          else
            let v1 : Vault := { v with total_shares := v.total_shares - shares }
            let s1 : VaultState :=
              { s with vaults := upd2 s.vaults vault_addr coin v1 }
            if v.total_assets < amount then .aborted .underflow s1
            else
              let v2 : Vault :=
                { v with total_shares := v.total_shares - shares
                         total_assets := v.total_assets - amount }
              let s2 : VaultState :=
                { s with vaults := upd2 s.vaults vault_addr coin v2 }
              let p1 : UserPosition := { p with shares := p.shares - shares }
              let s3 : VaultState :=
                { s2 with positions := upd s2.positions user p1 }
              match s3.handles vault_addr with
              | none => .aborted .missing s3
              | some h =>
                let ev : WithdrawEvent :=
                  { vault_id := v.vault_id, user := user, amount := amount
                    shares := shares, timestamp := now }
                let h1 : VaultEventHandle :=
                  { h with withdraw_events := h.withdraw_events ++ [ev] }
                .ok { s3 with handles := upd s3.handles vault_addr h1 }

/-- `vault_core::harvest<CoinType>`. -/
def harvest (s : VaultState) (admin vault_addr coin profit now : Nat) :
    StepRes VaultState :=
  match s.vaults vault_addr coin with
  | none => .aborted .missing s
  | some v =>
    if admin = v.admin then
      if U64MAX < profit * v.performance_fee then .aborted .overflow s
      else
        let fee := profit * v.performance_fee / 10000
        if profit < fee then .aborted .underflow s
        else
          let net_profit := profit - fee
          if U64MAX < v.total_assets + net_profit then .aborted .overflow s
          else
            let v1 : Vault :=
              { v with total_assets := v.total_assets + net_profit
                       last_harvest := now }
            let s1 : VaultState :=
              { s with vaults := upd2 s.vaults vault_addr coin v1 }
            match s1.handles vault_addr with
            | none => .aborted .missing s1
            | some h =>
              let ev : HarvestEvent :=
                { vault_id := v.vault_id, profit := net_profit, timestamp := now }
              let h1 : VaultEventHandle :=
                { h with harvest_events := h.harvest_events ++ [ev] }
              .ok { s1 with handles := upd s1.handles vault_addr h1 }
    else .aborted (.code E_NOT_AUTHORIZED) s

/-- `vault_core::pause_vault<CoinType>`. -/
def pause_vault (s : VaultState) (admin vault_addr coin : Nat) :
    StepRes VaultState :=
  match s.vaults vault_addr coin with
  | none => .aborted .missing s
  | some v =>
    if admin = v.admin then
      .ok { s with vaults := upd2 s.vaults vault_addr coin { v with paused := true } }
    else .aborted (.code E_NOT_AUTHORIZED) s

/-- `vault_core::unpause_vault<CoinType>`. -/
def unpause_vault (s : VaultState) (admin vault_addr coin : Nat) :
    StepRes VaultState :=
  match s.vaults vault_addr coin with
  | none => .aborted .missing s
  | some v =>
    if admin = v.admin then
      .ok { s with vaults := upd2 s.vaults vault_addr coin { v with paused := false } }
    else .aborted (.code E_NOT_AUTHORIZED) s

/-- `vault_core::update_vault_params<CoinType>`. -/
def update_vault_params (s : VaultState)
    (admin vault_addr coin rebalance_interval target_leverage max_slippage : Nat) :
    StepRes VaultState :=
  match s.vaults vault_addr coin with
  | none => .aborted .missing s
  | some v =>
    if admin = v.admin then
      let v1 : Vault :=
        { v with rebalance_interval := rebalance_interval
                 target_leverage := target_leverage
                 max_slippage := max_slippage }
      .ok { s with vaults := upd2 s.vaults vault_addr coin v1 }
    else .aborted (.code E_NOT_AUTHORIZED) s

/-- `vault_core::rebalance_vault<CoinType>`.  The strategy branch mirrors the
source's `if`/`else if` chain: only the CLMM, delta-neutral and
funding-rate-arbitrage strategies write `last_rebalance`; any other
`strategy_type` (in particular `STRATEGY_ARBITRAGE = 3`) falls through with
no state change before the event is emitted. -/
def rebalance_vault (s : VaultState)
    (vault_addr coin current_price price_confidence now : Nat) :
    StepRes VaultState :=
  match s.vaults vault_addr coin with
  | none => .aborted .missing s
  | some v =>
    if U64MAX < v.last_rebalance + v.rebalance_interval then .aborted .overflow s
    else if now < v.last_rebalance + v.rebalance_interval then
      .aborted (.code E_REBALANCE_TOO_SOON) s
    else if price_confidence = 0 then .aborted (.code E_PRICE_STALE) s
    else
      let _ := current_price
      let vr : Vault := { v with last_rebalance := now }
      let s1 : VaultState :=
        if v.strategy_type = STRATEGY_CLMM then
          { s with vaults := upd2 s.vaults vault_addr coin vr }
        else if v.strategy_type = STRATEGY_DELTA_NEUTRAL then
          { s with vaults := upd2 s.vaults vault_addr coin vr }
        else if v.strategy_type = STRATEGY_FUNDING_RATE_ARB then
          { s with vaults := upd2 s.vaults vault_addr coin vr }
        else s
      match s1.handles vault_addr with
      | none => .aborted .missing s1
      | some h =>
        let ev : HarvestEvent :=
          { vault_id := v.vault_id, profit := 0, timestamp := now }
        let h1 : VaultEventHandle :=
          { h with harvest_events := h.harvest_events ++ [ev] }
        .ok { s1 with handles := upd s1.handles vault_addr h1 }

/-! Data model of `funding_arbitrage`, field for field.  Market symbols
(`vector<u8>`) are byte lists. -/

def MIN_FUNDING_RATE : Nat := 10
def E_INVALID_FUNDING_RATE : Nat := 3
def E_POSITION_NOT_FOUND : Nat := 5

structure ArbPosition where
  position_id : Nat
  market : List Nat
  side : Nat
  size : Nat
  entry_price : Nat
  entry_timestamp : Nat
  funding_rate : Nat
  expected_profit : Nat
  collateral : Nat
  is_active : Bool
deriving DecidableEq

structure UserArbState where
  positions : List ArbPosition
  total_collateral : Nat
  total_profit : Nat
  position_count : Nat
deriving DecidableEq

structure ArbRegistry where
  next_position_id : Nat
  total_volume : Nat
  total_positions : Nat
  admin : Nat
deriving DecidableEq

structure PositionOpenedEvent where
  position_id : Nat
  user : Nat
  market : List Nat
  size : Nat
  funding_rate : Nat
  timestamp : Nat
deriving DecidableEq

structure PositionClosedEvent where
  position_id : Nat
  user : Nat
  realized_profit : Nat
  timestamp : Nat
deriving DecidableEq

structure OpportunityFoundEvent where
  market : List Nat
  funding_rate : Nat
  predicted_profit : Nat
  timestamp : Nat
deriving DecidableEq

structure ArbEventHandle where
  position_opened_events : List PositionOpenedEvent
  position_closed_events : List PositionClosedEvent
  opportunity_events : List OpportunityFoundEvent
deriving DecidableEq

/-- The whole storage the `funding_arbitrage` module can touch. -/
structure ArbState where
  userStates : Nat → Option UserArbState
  registries : Nat → Option ArbRegistry
  handles : Nat → Option ArbEventHandle

/-- `funding_arbitrage::open_arb_position`.  Mirrors the source's order: the
funding-rate check first, then lazy initialization of the caller's
`UserArbState`, then the expected-profit computation, the position append,
the per-user counters, the registry counters, and the event. -/
def open_arb_position (s : ArbState) (user registry_addr : Nat)
    (market : List Nat) (funding_rate size collateral entry_price now : Nat) :
    StepRes ArbState :=
  if funding_rate < MIN_FUNDING_RATE then .aborted (.code E_INVALID_FUNDING_RATE) s
  else
    match s.registries registry_addr with
    | none => .aborted .missing s
    | some reg =>
      let st0 : UserArbState :=
        { positions := [], total_collateral := 0, total_profit := 0
          position_count := 0 }
      let s1 : ArbState :=
        match s.userStates user with
        | none => { s with userStates := upd s.userStates user st0 }
        | some _ => s
      match s1.userStates user with
      | none => .aborted .missing s1
      | some st =>
        if U64MAX < size * funding_rate then .aborted .overflow s1
        else
          let expected_profit := size * funding_rate / 10000
          let position : ArbPosition :=
            { position_id := reg.next_position_id
              market := market
              side := 1
              size := size
              entry_price := entry_price
              entry_timestamp := now
              funding_rate := funding_rate
              expected_profit := expected_profit
              collateral := collateral
              is_active := true }
          let st1 : UserArbState := { st with positions := st.positions ++ [position] }
          let s2 : ArbState := { s1 with userStates := upd s1.userStates user st1 }
          if U64MAX < st.total_collateral + collateral then .aborted .overflow s2
          else
            let st2 : UserArbState :=
              { st1 with total_collateral := st.total_collateral + collateral }
            let s3 : ArbState := { s1 with userStates := upd s1.userStates user st2 }
            if U64MAX < st.position_count + 1 then .aborted .overflow s3
            else
              let st3 : UserArbState :=
                { st2 with position_count := st.position_count + 1 }
              let s4 : ArbState := { s1 with userStates := upd s1.userStates user st3 }
              if U64MAX < reg.next_position_id + 1 then .aborted .overflow s4
              else
                let reg1 : ArbRegistry :=
                  { reg with next_position_id := reg.next_position_id + 1 }
                let s5 : ArbState :=
                  { s4 with registries := upd s4.registries registry_addr reg1 }
                if U64MAX < reg.total_positions + 1 then .aborted .overflow s5
                else
                  let reg2 : ArbRegistry :=
                    { reg1 with total_positions := reg.total_positions + 1 }
                  let s6 : ArbState :=
                    { s4 with registries := upd s4.registries registry_addr reg2 }
                  if U64MAX < reg.total_volume + size then .aborted .overflow s6
                  else
                    let reg3 : ArbRegistry :=
                      { reg2 with total_volume := reg.total_volume + size }
                    let s7 : ArbState :=
                      { s4 with registries := upd s4.registries registry_addr reg3 }
                    match s7.handles registry_addr with
                    | none => .aborted .missing s7
                    | some h =>
                      let ev : PositionOpenedEvent :=
                        { position_id := position.position_id, user := user
                          market := position.market, size := size
                          funding_rate := funding_rate, timestamp := now }
                      let h1 : ArbEventHandle :=
                        { h with position_opened_events :=
                            h.position_opened_events ++ [ev] }
                      .ok { s7 with handles := upd s7.handles registry_addr h1 }

/-- `funding_arbitrage::close_arb_position`.  `price_diff` is computed from
`exit_price` exactly as in the source and then never used; the realized
profit is funding accrual only. -/
def close_arb_position (s : ArbState)
    (user registry_addr position_index exit_price now : Nat) : StepRes ArbState :=
  match s.userStates user with
  | none => .aborted (.code E_POSITION_NOT_FOUND) s
  | some st =>
    if hlen : position_index < st.positions.length then
      let position := st.positions.get ⟨position_index, hlen⟩
      if position.is_active then
        if now < position.entry_timestamp then .aborted .underflow s
        else
          let time_held := now - position.entry_timestamp
          let price_diff :=
            if position.entry_price < exit_price then
              exit_price - position.entry_price
            else
              position.entry_price - exit_price
          let _ := price_diff
          if U64MAX < position.funding_rate * position.size then .aborted .overflow s
          else if U64MAX < position.funding_rate * position.size * time_held then
            .aborted .overflow s
          else
            let realized_profit :=
              position.funding_rate * position.size * time_held / (10000 * 86400)
            let st1 : UserArbState :=
              { st with positions :=
                  st.positions.set position_index { position with is_active := false } }
            let s1 : ArbState := { s with userStates := upd s.userStates user st1 }
            if U64MAX < st.total_profit + realized_profit then .aborted .overflow s1
            else
              let st2 : UserArbState :=
                { st1 with total_profit := st.total_profit + realized_profit }
              let s2 : ArbState := { s with userStates := upd s.userStates user st2 }
              if st.total_collateral < position.collateral then .aborted .underflow s2
              else
                let st3 : UserArbState :=
                  { st2 with total_collateral := st.total_collateral - position.collateral }
                let s3 : ArbState := { s with userStates := upd s.userStates user st3 }
                match s3.handles registry_addr with
                | none => .aborted .missing s3
                | some h =>
                  let ev : PositionClosedEvent :=
                    { position_id := position.position_id, user := user
                      realized_profit := realized_profit, timestamp := now }
                  let h1 : ArbEventHandle :=
                    { h with position_closed_events :=
                        h.position_closed_events ++ [ev] }
                  .ok { s3 with handles := upd s3.handles registry_addr h1 }
      else .aborted (.code E_POSITION_NOT_FOUND) s
    else .aborted (.code E_POSITION_NOT_FOUND) s

/-! Combined system state and the operation dispatcher used for the
whole-system claims (atomicity on precondition failure, and which operations
can touch a user's `UserPosition`). -/

/-- Storage of both modules together. -/
structure SysState where
  vault : VaultState
  arb : ArbState

/-- One entry-point call with its arguments (the `now` timestamp is supplied
separately when the call is run). -/
inductive Op where
  | depositOp (user vault_addr coin amount : Nat)
  | withdrawOp (user vault_addr coin shares : Nat)
  | harvestOp (admin vault_addr coin profit : Nat)
  | rebalanceOp (vault_addr coin current_price price_confidence : Nat)
  | pauseOp (admin vault_addr coin : Nat)
  | unpauseOp (admin vault_addr coin : Nat)
  | updateParamsOp (admin vault_addr coin ri tl ms : Nat)
  | openArbOp (user registry_addr : Nat) (market : List Nat)
      (funding_rate size collateral entry_price : Nat)
  | closeArbOp (user registry_addr position_index exit_price : Nat)

/-- Lift a `vault_core` outcome to the combined state. -/
def liftVault (s : SysState) : StepRes VaultState → StepRes SysState
  | .ok v => .ok { s with vault := v }
  | .aborted e v => .aborted e { s with vault := v }

/-- Lift a `funding_arbitrage` outcome to the combined state. -/
def liftArb (s : SysState) : StepRes ArbState → StepRes SysState
  | .ok a => .ok { s with arb := a }
  | .aborted e a => .aborted e { s with arb := a }

/-- Run one entry-point call against the combined storage. -/
def runOp (s : SysState) (op : Op) (now : Nat) : StepRes SysState :=
  match op with
  | .depositOp u va c a => liftVault s (deposit s.vault u va c a now)
  | .withdrawOp u va c sh => liftVault s (withdraw s.vault u va c sh now)
  | .harvestOp a va c p => liftVault s (harvest s.vault a va c p now)
  | .rebalanceOp va c cp pc => liftVault s (rebalance_vault s.vault va c cp pc now)
  | .pauseOp a va c => liftVault s (pause_vault s.vault a va c)
  | .unpauseOp a va c => liftVault s (unpause_vault s.vault a va c)
  | .updateParamsOp a va c ri tl ms =>
      liftVault s (update_vault_params s.vault a va c ri tl ms)
  | .openArbOp u r m fr sz col ep =>
      liftArb s (open_arb_position s.arb u r m fr sz col ep now)
  | .closeArbOp u r i ep => liftArb s (close_arb_position s.arb u r i ep now)

/-- Whether the call is a deposit or a withdrawal made by user `w` — the only
calls that write `w`'s `UserPosition`. -/
def touchesPositionOf (op : Op) (w : Nat) : Bool :=
  match op with
  | .depositOp u _ _ _ => u == w
  | .withdrawOp u _ _ _ => u == w
  | _ => false

/-- Overwrite the `paused` flag of the vault stored at (`vault_addr`, `coin`),
leaving every other component of the storage alone. -/
def setPausedAt (s : VaultState) (vault_addr coin : Nat) (b : Bool) : VaultState :=
  match s.vaults vault_addr coin with
  | none => s
  | some v =>
    { s with vaults := upd2 s.vaults vault_addr coin { v with paused := b } }

/-- The implicit vault solvency invariant: every stored vault with outstanding
shares holds assets. -/
def VaultInv (s : VaultState) : Prop :=
  ∀ va coin v, s.vaults va coin = some v → v.total_shares ≠ 0 → v.total_assets ≠ 0

/-- One successful `vault_core` transition among the operations named by the
reachability claim: vault creation, deposit, withdraw, harvest.  (Aborted
calls are rolled back by the Move VM and do not change storage.) -/
inductive VStep : VaultState → VaultState → Prop where
  | create (s s2 : VaultState) (admin coin st pf mf ri tl ms now : Nat)
      (h : create_vault s admin coin st pf mf ri tl ms now = .ok s2) : VStep s s2
  | dep (s s2 : VaultState) (u va coin a now : Nat)
      (h : deposit s u va coin a now = .ok s2) : VStep s s2
  | wd (s s2 : VaultState) (u va coin sh now : Nat)
      (h : withdraw s u va coin sh now = .ok s2) : VStep s s2
  | harv (s s2 : VaultState) (a va coin p now : Nat)
      (h : harvest s a va coin p now = .ok s2) : VStep s s2

/-! Concrete storage fixtures used by the counterexamples and witnesses.
Addresses: `1` is the admin / vault address, `5` is an ordinary user. -/

/-- A fresh event handle. -/
def emptyHandle : VaultEventHandle :=
  { deposit_events := [], withdraw_events := [], harvest_events := [] }

/-- A plain CLMM vault with no fees, as `create_vault` makes it. -/
def demoVault : Vault :=
  { vault_id := 1, strategy_type := 1, total_shares := 0, total_assets := 0
    performance_fee := 0, management_fee := 0, last_harvest := 0
    last_rebalance := 0, rebalance_interval := 100, target_leverage := 0
    max_slippage := 0, paused := false, admin := 1, protocol_integration := [] }

/-- Storage holding the single vault `v` at (address 1, coin 0), a registry
and an event handle at address 1, and user 5's position `p` (if any). -/
def oneVaultState (v : Vault) (p : Option UserPosition) : VaultState :=
  { vaults := fun a c => if a = 1 ∧ c = 0 then some v else none
    positions := fun u => if u = 5 then p else none
    registries := fun a =>
      if a = 1 then some { next_vault_id := 2, vault_count := 1 } else none
    handles := fun a => if a = 1 then some emptyHandle else none }

/-- Storage with a registry and event handle at address 1 and nothing else:
the state right after `init_module` runs for the publisher at address 1. -/
def initVS : VaultState :=
  { vaults := fun _ _ => none
    positions := fun _ => none
    registries := fun a =>
      if a = 1 then some { next_vault_id := 1, vault_count := 0 } else none
    handles := fun a => if a = 1 then some emptyHandle else none }

/-- Two vaults by the same admin: coin 0 and coin 1, both created at time 0. -/
def twoVaultVS : VaultState :=
  resState (create_vault
    (resState (create_vault initVS 1 0 1 0 0 100 0 0 0)) 1 1 1 0 0 100 0 0 0)

/-- ... after user 5 deposits 100 into the coin-0 vault at time 10. -/
def twoVaultDep : VaultState := resState (deposit twoVaultVS 5 1 0 100 10)

/-- ... after user 5 then withdraws all 100 shares at time 12, emptying the
coin-0 vault while keeping a (zero-share) position. -/
def drainedVS : VaultState := resState (withdraw twoVaultDep 5 1 0 100 12)

/-- A vault of strategy type `STRATEGY_ARBITRAGE`, whose branch of
`rebalance_vault` is a fall-through. -/
def arbVault : Vault := { demoVault with strategy_type := 3 }

/-- `demoVault` with a 1% performance fee. -/
def feeVault : Vault := { demoVault with performance_fee := 100 }

/-- A paused `demoVault`. -/
def pausedVault : Vault := { demoVault with paused := true }

/-- An arbitrage position for the concrete funding-arbitrage scenarios:
opened at time 100, 20 bps funding, size 1000000, collateral 300. -/
def demoArbPos : ArbPosition :=
  { position_id := 1, market := [65, 80, 84], side := 1, size := 1000000
    entry_price := 700, entry_timestamp := 100, funding_rate := 20
    expected_profit := 2000, collateral := 300, is_active := true }

/-- Arbitrage storage: registry and handle at address 1, user 5 holding the
single active position `demoArbPos`. -/
def demoArbState : ArbState :=
  { userStates := fun u =>
      if u = 5 then
        some { positions := [demoArbPos], total_collateral := 300
               total_profit := 0, position_count := 1 }
      else none
    registries := fun a =>
      if a = 1 then
        some { next_position_id := 2, total_volume := 1000000
               total_positions := 1, admin := 1 }
      else none
    handles := fun a =>
      if a = 1 then
        some { position_opened_events := [], position_closed_events := []
               opportunity_events := [] }
      else none }

/-- Combined-storage fixture for the atomicity witness. -/
def demoSys : SysState := { vault := oneVaultState demoVault none, arb := demoArbState }

/-- `demoVault` holding 100 shares against 100 assets. -/
def fullVault : Vault := { demoVault with total_shares := 100, total_assets := 100 }

/-- User 5's position matching `fullVault`. -/
def posA : UserPosition := { vault_id := 1, shares := 100, deposited_at := 10 }

/-- Reachability trace for the zero-share-mint scenario: create a no-fee vault,
deposit 10, then harvest a profit of 20 (no shares minted), giving a share
price of 3 assets per share. -/
def c10sA : VaultState := resState (create_vault initVS 1 0 1 0 0 100 0 0 0)

/-- ... after user 5 deposits 10 at time 10. -/
def c10sB : VaultState := resState (deposit c10sA 5 1 0 10 10)

/-- ... after the admin harvests a profit of 20 at time 15. -/
def c10sC : VaultState := resState (harvest c10sB 1 1 0 20 15)

/-! From here on: the lemmas and theorems. -/

theorem upd_self {α : Type} (f : Nat → Option α) (k : Nat) (v : α) :
    upd f k v k = some v := by simp [upd]

theorem upd_other {α : Type} (f : Nat → Option α) (k x : Nat) (v : α)
    (h : x ≠ k) : upd f k v x = f x := by simp [upd, h]

theorem upd2_self {α : Type} (f : Nat → Nat → Option α) (a c : Nat) (v : α) :
    upd2 f a c v a c = some v := by simp [upd2]

theorem upd2_upd2 {α : Type} (f : Nat → Nat → Option α) (a c : Nat) (v w : α) :
    upd2 (upd2 f a c v) a c w = upd2 f a c w := by
  funext x y
  simp only [upd2]
  split <;> rfl

/-- C1, counterexample.  The claim says a deposit into a different vault never
alters the shares a user's `UserPosition` records for a given vault.  In the
code a user has a single `UserPosition` resource keyed by account alone: after
user 5 deposits 100 into the coin-0 vault (`vault_id = 1`), a deposit of 50
into the distinct coin-1 vault (`vault_id = 2`) succeeds and bumps that same
position's shares from 100 to 150 even though its recorded `vault_id` is 1. -/
theorem c1_counterexample :
    twoVaultDep.positions 5 =
      some { vault_id := 1, shares := 100, deposited_at := 10 } ∧
    (twoVaultVS.vaults 1 1).map Vault.vault_id = some 2 ∧
    isOk (deposit twoVaultDep 5 1 1 50 11) = true ∧
    (resState (deposit twoVaultDep 5 1 1 50 11)).positions 5 =
      some { vault_id := 1, shares := 150, deposited_at := 10 } := by
  refine ⟨?_, ?_, ?_, ?_⟩ <;> decide

/-- C2, counterexample.  The claim says every withdraw call that passes the
`InsufficientBalance` checks meets a non-zero `total_shares` at the division.
After user 5 deposits 100 into the coin-0 vault and withdraws all 100 shares,
the vault has `total_shares = 0` while the user still owns a zero-share
position; a further withdraw of 0 shares passes both checks (`exists` and
`position.shares ≥ 0`) and then aborts on the division
`0 * total_assets / total_shares` with `total_shares = 0`. -/
theorem c2_counterexample :
    (drainedVS.positions 5).map UserPosition.shares = some 0 ∧
    (drainedVS.vaults 1 0).map Vault.total_shares = some 0 ∧
    errOf (withdraw drainedVS 5 1 0 0 13) = some .divByZero := by
  refine ⟨?_, ?_, ?_⟩ <;> decide

/-- C3, counterexample.  The claim covers vaults of any `strategy_type`.  For
`STRATEGY_ARBITRAGE` (3) the branch of `rebalance_vault` falls through, so a
successful rebalance at time 100 leaves `last_rebalance = 0`, and a second
call at time 100 — well within `rebalance_interval = 100` of the first — also
succeeds instead of failing with `RebalanceTooSoon`. -/
theorem c3_counterexample :
    arbVault.strategy_type = STRATEGY_ARBITRAGE ∧
    isOk (rebalance_vault (oneVaultState arbVault none) 1 0 50 1 100) = true ∧
    ((resState (rebalance_vault (oneVaultState arbVault none) 1 0 50 1 100)).vaults
        1 0).map Vault.last_rebalance = some 0 ∧
    (100 : Nat) < 100 + arbVault.rebalance_interval ∧
    isOk (rebalance_vault
      (resState (rebalance_vault (oneVaultState arbVault none) 1 0 50 1 100))
      1 0 50 1 100) = true := by
  refine ⟨?_, ?_, ?_, ?_, ?_⟩ <;> decide

/-- C4, counterexample.  The claim says `net_profit == profit` iff
`performance_fee == 0`.  With `performance_fee = 100` (1%) and `profit = 1`,
the fee `floor(1 * 100 / 10000)` is 0, so the harvest credits the full profit
(`total_assets` goes from 0 to 1 and the event reports `net_profit = 1`)
although the fee rate is non-zero. -/
theorem c4_counterexample :
    feeVault.performance_fee = 100 ∧
    feeVault.total_assets = 0 ∧
    isOk (harvest (oneVaultState feeVault none) 1 1 0 1 20) = true ∧
    ((resState (harvest (oneVaultState feeVault none) 1 1 0 1 20)).vaults 1 0).map
      Vault.total_assets = some 1 ∧
    ((resState (harvest (oneVaultState feeVault none) 1 1 0 1 20)).handles 1).map
      VaultEventHandle.harvest_events =
      some [{ vault_id := 1, profit := 1, timestamp := 20 }] := by
  refine ⟨?_, ?_, ?_, ?_, ?_⟩ <;> decide

/-- C5, counterexample.  The claim says every deposit on a paused vault fails
with `VaultPaused` regardless of amount.  The source checks
`assert!(amount > 0, E_INVALID_AMOUNT)` before reading the vault, so a
zero-amount deposit on a paused vault aborts with `InvalidAmount` (code 4),
not `VaultPaused` (code 5). -/
theorem c5_counterexample :
    pausedVault.paused = true ∧
    errOf (deposit (oneVaultState pausedVault none) 5 1 0 0 7) =
      some (.code E_INVALID_AMOUNT) ∧
    E_INVALID_AMOUNT ≠ E_VAULT_PAUSED := by
  refine ⟨?_, ?_, ?_⟩ <;> decide

/-- C6, counterexample.  The claim quantifies over every `A > 0`.  For
`A = 2^32` the deposit into the empty vault succeeds and mints `A` shares, but
the immediate withdrawal of those `A` shares aborts: Move's u64 multiplication
`shares * total_assets = 2^64` overflows, so nothing is returned at all. -/
theorem c6_counterexample :
    isOk (deposit (oneVaultState demoVault none) 5 1 0 4294967296 10) = true ∧
    ((resState (deposit (oneVaultState demoVault none) 5 1 0 4294967296 10)).vaults
        1 0).map Vault.total_shares = some 4294967296 ∧
    errOf (withdraw
      (resState (deposit (oneVaultState demoVault none) 5 1 0 4294967296 10))
      5 1 0 4294967296 11) = some .overflow := by
  refine ⟨?_, ?_, ?_⟩ <;> decide

/-- C4, amended.  For every harvest that completes, the vault's assets grow by
`net_profit = profit - floor(profit * performance_fee / 10000)`, `net_profit ≤
profit` always holds, and `net_profit = profit` iff the floored fee is zero,
i.e. iff `profit * performance_fee < 10000`.  `performance_fee = 0` is
sufficient for equality but not necessary. -/
theorem c4_amended (s s2 : VaultState) (admin va coin profit now : Nat) (v : Vault)
    (hv : s.vaults va coin = some v)
    (hok : harvest s admin va coin profit now = .ok s2) :
    (s2.vaults va coin).map Vault.total_assets =
      some (v.total_assets + (profit - profit * v.performance_fee / 10000)) ∧
    profit - profit * v.performance_fee / 10000 ≤ profit ∧
    ((profit - profit * v.performance_fee / 10000 = profit) ↔
      profit * v.performance_fee < 10000) ∧
    (v.performance_fee = 0 → profit - profit * v.performance_fee / 10000 = profit) := by
  have hfee : profit * v.performance_fee / 10000 = 0 ↔
      profit * v.performance_fee < 10000 := Nat.div_eq_zero_iff (by omega)
  simp only [harvest, hv] at hok
  split at hok
  case isTrue =>
    split at hok
    case isTrue => cases hok
    case isFalse =>
      split at hok
      case isTrue => cases hok
      case isFalse hsub =>
        split at hok
        case isTrue => cases hok
        case isFalse =>
          split at hok
          case h_1 => cases hok
          case h_2 =>
            cases hok
            refine ⟨?_, by omega, ?_, ?_⟩
            · simp [upd2_self]
            · constructor
              · intro hEq
                have : profit * v.performance_fee / 10000 = 0 := by omega
                exact hfee.mp this
              · intro hlt
                have : profit * v.performance_fee / 10000 = 0 := hfee.mpr hlt
                omega
            · intro h0
              simp [h0]
  case isFalse => cases hok

/-- C4, witness: a 1% vault harvesting a profit of 200 pays a fee of 2 and
credits 198. -/
theorem c4_witness :
    ((resState (harvest (oneVaultState feeVault none) 1 1 0 200 20)).vaults 1 0).map
      Vault.total_assets =
      some (feeVault.total_assets + (200 - 200 * feeVault.performance_fee / 10000)) ∧
    200 - 200 * feeVault.performance_fee / 10000 ≤ 200 ∧
    ((200 - 200 * feeVault.performance_fee / 10000 = 200) ↔
      200 * feeVault.performance_fee < 10000) ∧
    (feeVault.performance_fee = 0 → 200 - 200 * feeVault.performance_fee / 10000 = 200) :=
  c4_amended (oneVaultState feeVault none) _ 1 1 0 200 20 feeVault (by decide) rfl

/-- C2, amended.  The division in `withdraw` is safe once `shares > 0` is
added and the caller's recorded shares are bounded by the vault's
`total_shares` (which holds when the position was built against this vault
alone; the counterexample shows the claim fails for `shares = 0`, and the
per-user — not per-vault — keying of `UserPosition` also breaks the bound
across vaults): under those preconditions `total_shares ≠ 0`, so the
division-by-zero abort is unreachable. -/
theorem c2_amended (s : VaultState) (user va coin shares now : Nat)
    (v : Vault) (p : UserPosition)
    (hv : s.vaults va coin = some v) (hp : s.positions user = some p)
    (hsh : shares ≤ p.shares) (hpos : 0 < shares)
    (hbound : p.shares ≤ v.total_shares) :
    v.total_shares ≠ 0 ∧
    ∀ s2, withdraw s user va coin shares now ≠ .aborted .divByZero s2 := by
  have hts : v.total_shares ≠ 0 := by omega
  refine ⟨hts, ?_⟩
  intro s2 hcontra
  simp only [withdraw, hv, hp] at hcontra
  repeat' split at hcontra
  all_goals simp_all

/-- C2, witness: withdrawing 40 of 100 recorded shares from a vault holding
100 shares cannot hit the division by zero. -/
theorem c2_witness :
    fullVault.total_shares ≠ 0 ∧
    withdraw (oneVaultState fullVault (some posA)) 5 1 0 40 11 ≠
      .aborted .divByZero (oneVaultState fullVault (some posA)) := by
  have h := c2_amended (oneVaultState fullVault (some posA)) 5 1 0 40 11
    fullVault posA (by decide) (by decide) (by decide) (by decide) (by decide)
  exact ⟨h.1, h.2 _⟩

/-- C5, amended.  On a paused vault a deposit with `amount > 0` fails with
`VaultPaused`, but a zero-amount deposit fails with `InvalidAmount` because
the amount check runs first.  `withdraw` never reads the `paused` flag: its
outcome commutes with overwriting that flag, so a withdrawal on a paused
vault behaves exactly as on the unpaused one. -/
theorem c5_amended (s : VaultState) (user va coin now : Nat) (v : Vault)
    (hv : s.vaults va coin = some v) :
    (∀ amount, v.paused = true → 0 < amount →
      deposit s user va coin amount now = .aborted (.code E_VAULT_PAUSED) s) ∧
    (∀ amount, amount = 0 →
      deposit s user va coin amount now = .aborted (.code E_INVALID_AMOUNT) s) ∧
    (∀ shares b, withdraw (setPausedAt s va coin b) user va coin shares now =
      mapSt (fun st => setPausedAt st va coin b) (withdraw s user va coin shares now)) := by
  refine ⟨?_, ?_, ?_⟩
  · intro amount hpb hamt
    have h0 : ¬ amount = 0 := by omega
    simp [deposit, hv, h0, hpb]
  · intro amount h0
    simp [deposit, h0]
  · intro shares b
    have hsp : setPausedAt s va coin b =
        { s with vaults := upd2 s.vaults va coin { v with paused := b } } := by
      simp [setPausedAt, hv]
    rw [hsp]
    cases hp : s.positions user with
    | none =>
      simp [withdraw, hp, mapSt, hsp, setPausedAt, hv]
    | some p =>
      by_cases hlt : p.shares < shares
      · simp [withdraw, hp, hlt, mapSt, hsp, setPausedAt, hv]
      · simp only [withdraw, hp, hlt, if_false, hv, upd2_self]
        cases hh : s.handles va with
        | none =>
          split_ifs <;>
            simp_all [mapSt, setPausedAt, hv, upd2_self, upd2_upd2, hh]
        | some hd =>
          split_ifs <;>
            simp_all [mapSt, setPausedAt, hv, upd2_self, upd2_upd2, hh]

/-- C5, witness: the three parts at the concrete paused vault. -/
theorem c5_witness :
    deposit (oneVaultState pausedVault none) 5 1 0 3 7 =
      .aborted (.code E_VAULT_PAUSED) (oneVaultState pausedVault none) ∧
    deposit (oneVaultState pausedVault none) 5 1 0 0 7 =
      .aborted (.code E_INVALID_AMOUNT) (oneVaultState pausedVault none) ∧
    withdraw (setPausedAt (oneVaultState pausedVault none) 1 0 true) 5 1 0 0 7 =
      mapSt (fun st => setPausedAt st 1 0 true)
        (withdraw (oneVaultState pausedVault none) 5 1 0 0 7) := by
  have h := c5_amended (oneVaultState pausedVault none) 5 1 0 7 pausedVault (by decide)
  exact ⟨h.1 3 rfl (by decide), h.2.1 0 rfl, h.2.2 0 true⟩

/-- C3, amended.  For vaults of strategy type CLMM, DeltaNeutral or
FundingRateArb, every successful `rebalance_vault` at time `t` sets
`last_rebalance = t`, and any second call at a time `t2 < t +
rebalance_interval` fails with `RebalanceTooSoon` (assuming `t +
rebalance_interval` stays within u64, since Move evaluates the sum before the
comparison).  The counterexample shows the claim fails for strategy type
Arbitrage, whose branch is a fall-through that never writes
`last_rebalance`. -/
theorem c3_amended (s s1 : VaultState) (va coin cp pc t : Nat) (v : Vault)
    (hv : s.vaults va coin = some v)
    (hst : v.strategy_type = STRATEGY_CLMM ∨ v.strategy_type = STRATEGY_DELTA_NEUTRAL ∨
           v.strategy_type = STRATEGY_FUNDING_RATE_ARB)
    (hok : rebalance_vault s va coin cp pc t = .ok s1)
    (hnof : t + v.rebalance_interval ≤ U64MAX) :
    (s1.vaults va coin).map Vault.last_rebalance = some t ∧
    ∀ cp2 pc2 t2, t2 < t + v.rebalance_interval →
      rebalance_vault s1 va coin cp2 pc2 t2 = .aborted (.code E_REBALANCE_TOO_SOON) s1 := by
  simp only [rebalance_vault, hv] at hok
  have hbranch :
      (if v.strategy_type = STRATEGY_CLMM then
        { s with vaults := upd2 s.vaults va coin { v with last_rebalance := t } }
      else if v.strategy_type = STRATEGY_DELTA_NEUTRAL then
        { s with vaults := upd2 s.vaults va coin { v with last_rebalance := t } }
      else if v.strategy_type = STRATEGY_FUNDING_RATE_ARB then
        { s with vaults := upd2 s.vaults va coin { v with last_rebalance := t } }
      else s) =
      { s with vaults := upd2 s.vaults va coin { v with last_rebalance := t } } := by
    rcases hst with h | h | h <;> simp [h]
  rw [hbranch] at hok
  repeat' split at hok
  all_goals cases hok
  constructor
  · simp [upd2_self]
  · intro cp2 pc2 t2 ht2
    simp only [rebalance_vault, upd2_self]
    have hno : ¬ U64MAX < t + v.rebalance_interval := Nat.not_lt.mpr hnof
    rw [if_neg hno, if_pos ht2]

/-- C3, witness: the CLMM demo vault rebalanced at time 100 records
`last_rebalance = 100`, and a retry at time 150 < 200 fails with
`RebalanceTooSoon`. -/
theorem c3_witness :
    ((resState (rebalance_vault (oneVaultState demoVault none) 1 0 50 1 100)).vaults
        1 0).map Vault.last_rebalance = some 100 ∧
    rebalance_vault (resState (rebalance_vault (oneVaultState demoVault none) 1 0 50 1 100))
        1 0 7 1 150 =
      .aborted (.code E_REBALANCE_TOO_SOON)
        (resState (rebalance_vault (oneVaultState demoVault none) 1 0 50 1 100)) := by
  have h := c3_amended (oneVaultState demoVault none)
    (resState (rebalance_vault (oneVaultState demoVault none) 1 0 50 1 100))
    1 0 50 1 100 demoVault (by decide) (Or.inl rfl) rfl (by decide)
  exact ⟨h.1, h.2 7 1 150 (by decide)⟩

/-- C6, amended.  For every `A` with `0 < A` and `A * A ≤ u64::MAX` (that is,
`A < 2^32`), depositing `A` into an empty, unpaused vault by a fresh user
mints exactly `A` shares, and immediately withdrawing those `A` shares
returns exactly `A` assets (the withdraw event records amount `A`), leaving
the vault empty again.  The bound is forced by the counterexample: at
`A = 2^32` the withdrawal's u64 product `shares * total_assets` overflows and
the call aborts. -/
theorem c6_amended (s : VaultState) (user va coin a t1 t2 : Nat) (v : Vault)
    (hd : VaultEventHandle)
    (hv : s.vaults va coin = some v)
    (hts : v.total_shares = 0) (hta : v.total_assets = 0)
    (hpa : v.paused = false)
    (hhd : s.handles va = some hd)
    (hp : s.positions user = none)
    (ha : 0 < a) (hsq : a * a ≤ U64MAX) :
    isOk (deposit s user va coin a t1) = true ∧
    ((resState (deposit s user va coin a t1)).vaults va coin).map
      Vault.total_shares = some a ∧
    ((resState (deposit s user va coin a t1)).positions user).map
      UserPosition.shares = some a ∧
    isOk (withdraw (resState (deposit s user va coin a t1)) user va coin a t2) = true ∧
    ((resState (withdraw (resState (deposit s user va coin a t1)) user va coin a t2)).handles
        va).map (fun h => h.withdraw_events.map WithdrawEvent.amount) =
      (s.handles va).map (fun h => h.withdraw_events.map WithdrawEvent.amount ++ [a]) ∧
    ((resState (withdraw (resState (deposit s user va coin a t1)) user va coin a t2)).vaults
        va coin).map Vault.total_shares = some 0 ∧
    ((resState (withdraw (resState (deposit s user va coin a t1)) user va coin a t2)).vaults
        va coin).map Vault.total_assets = some 0 ∧
    ((resState (withdraw (resState (deposit s user va coin a t1)) user va coin a t2)).positions
        user).map UserPosition.shares = some 0 := by
  have ha0 : ¬ a = 0 := by omega
  have haMax : a ≤ U64MAX := le_trans (Nat.le_mul_of_pos_left a ha) hsq
  have hnlt : ¬ U64MAX < a := Nat.not_lt.mpr haMax
  have hnsq : ¬ U64MAX < a * a := Nat.not_lt.mpr hsq
  have hdiv : a * a / a = a := by
    rw [Nat.mul_div_cancel_left a (by omega)]
  have hdep : deposit s user va coin a t1 =
      .ok { s with
        vaults := upd2 s.vaults va coin
          { v with total_shares := 0 + a, total_assets := 0 + a }
        positions := upd s.positions user
          { vault_id := v.vault_id, shares := a, deposited_at := t1 }
        handles := upd s.handles va
          { hd with deposit_events := hd.deposit_events ++
              [{ vault_id := v.vault_id, user := user, amount := a
                 shares := a, timestamp := t1 }] } } := by
    simp [deposit, depositRest, hv, hts, hta, hpa, hp, hhd, ha0, hnlt, upd]
  rw [hdep]
  simp only [resState]
  refine ⟨rfl, ?_, ?_, ?_, ?_, ?_, ?_, ?_⟩ <;>
    simp [withdraw, isOk, resState, upd, upd2, hv, hts, hta, hpa, hp, hhd,
      ha0, hnlt, hnsq, hdiv, Nat.zero_add]

/-- C6, witness: the round trip at `A = 7`. -/
theorem c6_witness :
    isOk (deposit (oneVaultState demoVault none) 5 1 0 7 10) = true ∧
    ((resState (deposit (oneVaultState demoVault none) 5 1 0 7 10)).vaults 1 0).map
      Vault.total_shares = some 7 ∧
    ((resState (deposit (oneVaultState demoVault none) 5 1 0 7 10)).positions 5).map
      UserPosition.shares = some 7 ∧
    isOk (withdraw (resState (deposit (oneVaultState demoVault none) 5 1 0 7 10))
      5 1 0 7 11) = true ∧
    ((resState (withdraw (resState (deposit (oneVaultState demoVault none) 5 1 0 7 10))
        5 1 0 7 11)).handles 1).map
      (fun h => h.withdraw_events.map WithdrawEvent.amount) =
      ((oneVaultState demoVault none).handles 1).map
        (fun h => h.withdraw_events.map WithdrawEvent.amount ++ [7]) ∧
    ((resState (withdraw (resState (deposit (oneVaultState demoVault none) 5 1 0 7 10))
        5 1 0 7 11)).vaults 1 0).map Vault.total_shares = some 0 ∧
    ((resState (withdraw (resState (deposit (oneVaultState demoVault none) 5 1 0 7 10))
        5 1 0 7 11)).vaults 1 0).map Vault.total_assets = some 0 ∧
    ((resState (withdraw (resState (deposit (oneVaultState demoVault none) 5 1 0 7 10))
        5 1 0 7 11)).positions 5).map UserPosition.shares = some 0 :=
  c6_amended (oneVaultState demoVault none) 5 1 0 7 10 11 demoVault emptyHandle
    (by decide) (by decide) (by decide) (by decide) (by decide) (by decide)
    (by decide) (by decide)

theorem resState_liftVault (s : SysState) (r : StepRes VaultState) :
    resState (liftVault s r) = { s with vault := resState r } := by
  cases r <;> rfl

theorem resState_liftArb (s : SysState) (r : StepRes ArbState) :
    resState (liftArb s r) = { s with arb := resState r } := by
  cases r <;> rfl

set_option maxHeartbeats 2000000 in
theorem deposit_positions_other (s : VaultState) (u va c a t w : Nat)
    (hw : ¬ w = u) :
    (resState (deposit s u va c a t)).positions w = s.positions w := by
  cases hr : deposit s u va c a t with
  | ok s2 =>
    simp only [resState]
    unfold deposit depositRest at hr
    repeat' (first | split at hr | dsimp only at hr)
    all_goals cases hr
    all_goals simp [upd, hw]
  | aborted e s2 =>
    simp only [resState]
    unfold deposit depositRest at hr
    repeat' (first | split at hr | dsimp only at hr)
    all_goals cases hr
    all_goals simp [upd, hw]

set_option maxHeartbeats 2000000 in
theorem withdraw_positions_other (s : VaultState) (u va c sh t w : Nat)
    (hw : ¬ w = u) :
    (resState (withdraw s u va c sh t)).positions w = s.positions w := by
  cases hr : withdraw s u va c sh t with
  | ok s2 =>
    simp only [resState]
    unfold withdraw at hr
    repeat' (first | split at hr | dsimp only at hr)
    all_goals cases hr
    all_goals simp [upd, hw]
  | aborted e s2 =>
    simp only [resState]
    unfold withdraw at hr
    repeat' (first | split at hr | dsimp only at hr)
    all_goals cases hr
    all_goals simp [upd, hw]

theorem harvest_positions (s : VaultState) (a va c p t : Nat) :
    (resState (harvest s a va c p t)).positions = s.positions := by
  cases hr : harvest s a va c p t with
  | ok s2 =>
    simp only [resState]
    unfold harvest at hr
    repeat' (first | split at hr | dsimp only at hr)
    all_goals cases hr
    all_goals rfl
  | aborted e s2 =>
    simp only [resState]
    unfold harvest at hr
    repeat' (first | split at hr | dsimp only at hr)
    all_goals cases hr
    all_goals rfl

theorem rebalance_positions (s : VaultState) (va c cp pc t : Nat) :
    (resState (rebalance_vault s va c cp pc t)).positions = s.positions := by
  cases hr : rebalance_vault s va c cp pc t with
  | ok s2 =>
    simp only [resState]
    unfold rebalance_vault at hr
    repeat' (first | split at hr | dsimp only at hr)
    all_goals cases hr
    all_goals rfl
  | aborted e s2 =>
    simp only [resState]
    unfold rebalance_vault at hr
    repeat' (first | split at hr | dsimp only at hr)
    all_goals cases hr
    all_goals rfl

theorem pause_positions (s : VaultState) (a va c : Nat) :
    (resState (pause_vault s a va c)).positions = s.positions := by
  cases hr : pause_vault s a va c with
  | ok s2 =>
    simp only [resState]
    unfold pause_vault at hr
    repeat' (first | split at hr | dsimp only at hr)
    all_goals cases hr
    all_goals rfl
  | aborted e s2 =>
    simp only [resState]
    unfold pause_vault at hr
    repeat' (first | split at hr | dsimp only at hr)
    all_goals cases hr
    all_goals rfl

theorem unpause_positions (s : VaultState) (a va c : Nat) :
    (resState (unpause_vault s a va c)).positions = s.positions := by
  cases hr : unpause_vault s a va c with
  | ok s2 =>
    simp only [resState]
    unfold unpause_vault at hr
    repeat' (first | split at hr | dsimp only at hr)
    all_goals cases hr
    all_goals rfl
  | aborted e s2 =>
    simp only [resState]
    unfold unpause_vault at hr
    repeat' (first | split at hr | dsimp only at hr)
    all_goals cases hr
    all_goals rfl

theorem update_params_positions (s : VaultState) (a va c ri tl ms : Nat) :
    (resState (update_vault_params s a va c ri tl ms)).positions = s.positions := by
  cases hr : update_vault_params s a va c ri tl ms with
  | ok s2 =>
    simp only [resState]
    unfold update_vault_params at hr
    repeat' (first | split at hr | dsimp only at hr)
    all_goals cases hr
    all_goals rfl
  | aborted e s2 =>
    simp only [resState]
    unfold update_vault_params at hr
    repeat' (first | split at hr | dsimp only at hr)
    all_goals cases hr
    all_goals rfl

/-- C1, amended.  A user's `UserPosition` is a single resource keyed by the
user's account, not by (user, vault); its `shares` change only through
deposit and withdraw calls made by that user — harvest, rebalance,
pause/unpause, parameter updates and all arbitrage operations leave every
position untouched, and deposits or withdrawals by other users leave it
untouched — but, as the counterexample shows, a deposit addressed to a vault
other than the one recorded in `vault_id` does alter the same position. -/
theorem c1_amended (s : SysState) (op : Op) (now w : Nat)
    (h : touchesPositionOf op w = false) :
    (resState (runOp s op now)).vault.positions w = s.vault.positions w := by
  cases op with
  | depositOp u va c a =>
    have hw : ¬ w = u := by
      intro hwu
      simp [touchesPositionOf, hwu] at h
    simp [runOp, resState_liftVault, deposit_positions_other _ _ _ _ _ _ _ hw]
  | withdrawOp u va c sh =>
    have hw : ¬ w = u := by
      intro hwu
      simp [touchesPositionOf, hwu] at h
    simp [runOp, resState_liftVault, withdraw_positions_other _ _ _ _ _ _ _ hw]
  | harvestOp a va c p => simp [runOp, resState_liftVault, harvest_positions]
  | rebalanceOp va c cp pc => simp [runOp, resState_liftVault, rebalance_positions]
  | pauseOp a va c => simp [runOp, resState_liftVault, pause_positions]
  | unpauseOp a va c => simp [runOp, resState_liftVault, unpause_positions]
  | updateParamsOp a va c ri tl ms =>
    simp [runOp, resState_liftVault, update_params_positions]
  | openArbOp u r m fr sz col ep => simp [runOp, resState_liftArb]
  | closeArbOp u r i ep => simp [runOp, resState_liftArb]

/-- C1, witness: a harvest does not touch user 5's position. -/
theorem c1_witness :
    (resState (runOp demoSys (.harvestOp 1 1 0 50) 20)).vault.positions 5 =
      demoSys.vault.positions 5 :=
  c1_amended demoSys (.harvestOp 1 1 0 50) 20 5 rfl

/-- C7.  Every successful `close_arb_position` realizes exactly
`floor(funding_rate * size * (now - entry_timestamp) / (10000 * 86400))`:
the user's `total_profit` grows by that value and the emitted
`PositionClosedEvent` records it; and the call's outcome — the entire
resulting state included — is the same for every `exit_price`, which only
feeds the dead `price_diff` computation. -/
theorem c7_theorem (s s2 : ArbState) (user reg idx ep t : Nat)
    (st : UserArbState) (hd : ArbEventHandle)
    (hst : s.userStates user = some st)
    (hlen : idx < st.positions.length)
    (hhd : s.handles reg = some hd)
    (hok : close_arb_position s user reg idx ep t = .ok s2) :
    (∀ ep2, close_arb_position s user reg idx ep2 t = .ok s2) ∧
    (s2.userStates user).map UserArbState.total_profit =
      some (st.total_profit +
        (st.positions.get ⟨idx, hlen⟩).funding_rate *
          (st.positions.get ⟨idx, hlen⟩).size *
          (t - (st.positions.get ⟨idx, hlen⟩).entry_timestamp) / (10000 * 86400)) ∧
    s2.handles reg = some { hd with position_closed_events :=
      hd.position_closed_events ++
        [{ position_id := (st.positions.get ⟨idx, hlen⟩).position_id
           user := user
           realized_profit := (st.positions.get ⟨idx, hlen⟩).funding_rate *
             (st.positions.get ⟨idx, hlen⟩).size *
             (t - (st.positions.get ⟨idx, hlen⟩).entry_timestamp) / (10000 * 86400)
           timestamp := t }] } := by
  refine ⟨fun ep2 => hok, ?_⟩
  unfold close_arb_position at hok
  rw [hst] at hok
  dsimp only at hok
  rw [dif_pos hlen] at hok
  repeat' (first | split at hok | dsimp only at hok)
  all_goals cases hok
  all_goals simp_all [upd]

/-- C7, witness: closing the demo position with exit prices 999 and 900 gives
the identical successful outcome, with the funding-accrual profit. -/
theorem c7_witness :
    close_arb_position demoArbState 5 1 0 999 612100 =
      .ok (resState (close_arb_position demoArbState 5 1 0 900 612100)) ∧
    ((resState (close_arb_position demoArbState 5 1 0 900 612100)).userStates 5).map
      UserArbState.total_profit =
      some (0 + 20 * 1000000 * (612100 - 100) / (10000 * 86400)) := by
  have h := c7_theorem demoArbState
    (resState (close_arb_position demoArbState 5 1 0 900 612100)) 5 1 0 900 612100
    { positions := [demoArbPos], total_collateral := 300
      total_profit := 0, position_count := 1 }
    { position_opened_events := [], position_closed_events := []
      opportunity_events := [] }
    (by decide) (by decide) (by decide) rfl
  exact ⟨h.1 999, h.2.1⟩

theorem liftVault_aborted (s : SysState) (r : StepRes VaultState) (er : Err)
    (s2 : SysState) (h : liftVault s r = .aborted er s2) :
    r = .aborted er s2.vault ∧ s2.arb = s.arb := by
  cases r with
  | ok v => simp [liftVault] at h
  | aborted e2 v =>
    simp only [liftVault] at h
    cases h
    exact ⟨rfl, rfl⟩

theorem liftArb_aborted (s : SysState) (r : StepRes ArbState) (er : Err)
    (s2 : SysState) (h : liftArb s r = .aborted er s2) :
    r = .aborted er s2.arb ∧ s2.vault = s.vault := by
  cases r with
  | ok v => simp [liftArb] at h
  | aborted e2 v =>
    simp only [liftArb] at h
    cases h
    exact ⟨rfl, rfl⟩

theorem sys_eq (s s2 : SysState) (h1 : s2.vault = s.vault) (h2 : s2.arb = s.arb) :
    s2 = s := by
  cases s2
  cases s
  simp_all

set_option maxHeartbeats 2000000 in
theorem deposit_code_state (s s2 : VaultState) (u va c a t e : Nat)
    (h : deposit s u va c a t = .aborted (.code e) s2) : s2 = s := by
  unfold deposit depositRest at h
  repeat' (first | split at h | dsimp only at h)
  all_goals cases h
  all_goals rfl

set_option maxHeartbeats 2000000 in
theorem withdraw_code_state (s s2 : VaultState) (u va c sh t e : Nat)
    (h : withdraw s u va c sh t = .aborted (.code e) s2) : s2 = s := by
  unfold withdraw at h
  repeat' (first | split at h | dsimp only at h)
  all_goals cases h
  all_goals rfl

theorem harvest_code_state (s s2 : VaultState) (a va c p t e : Nat)
    (h : harvest s a va c p t = .aborted (.code e) s2) : s2 = s := by
  unfold harvest at h
  repeat' (first | split at h | dsimp only at h)
  all_goals cases h
  all_goals rfl

theorem rebalance_code_state (s s2 : VaultState) (va c cp pc t e : Nat)
    (h : rebalance_vault s va c cp pc t = .aborted (.code e) s2) : s2 = s := by
  unfold rebalance_vault at h
  repeat' (first | split at h | dsimp only at h)
  all_goals cases h
  all_goals rfl

theorem pause_code_state (s s2 : VaultState) (a va c e : Nat)
    (h : pause_vault s a va c = .aborted (.code e) s2) : s2 = s := by
  unfold pause_vault at h
  repeat' (first | split at h | dsimp only at h)
  all_goals cases h
  all_goals rfl

theorem unpause_code_state (s s2 : VaultState) (a va c e : Nat)
    (h : unpause_vault s a va c = .aborted (.code e) s2) : s2 = s := by
  unfold unpause_vault at h
  repeat' (first | split at h | dsimp only at h)
  all_goals cases h
  all_goals rfl

theorem update_params_code_state (s s2 : VaultState) (a va c ri tl ms e : Nat)
    (h : update_vault_params s a va c ri tl ms = .aborted (.code e) s2) : s2 = s := by
  unfold update_vault_params at h
  repeat' (first | split at h | dsimp only at h)
  all_goals cases h
  all_goals rfl

set_option maxHeartbeats 2000000 in
theorem open_arb_code_state (s s2 : ArbState) (u r e : Nat) (m : List Nat)
    (fr sz col ep t : Nat)
    (h : open_arb_position s u r m fr sz col ep t = .aborted (.code e) s2) :
    s2 = s := by
  unfold open_arb_position at h
  repeat' (first | split at h | dsimp only at h)
  all_goals cases h
  all_goals rfl

set_option maxHeartbeats 2000000 in
theorem close_arb_code_state (s s2 : ArbState) (u r i ep t e : Nat)
    (h : close_arb_position s u r i ep t = .aborted (.code e) s2) : s2 = s := by
  unfold close_arb_position at h
  repeat' (first | split at h | dsimp only at h)
  all_goals cases h
  all_goals rfl

/-- C8.  Atomicity on a failed precondition check: whenever any of the nine
core operations aborts with an `assert!` error code — `NotAuthorized`,
`InsufficientBalance`, `InvalidAmount`, `VaultPaused`, `PriceStale`,
`RebalanceTooSoon`, `InvalidFundingRate`, `PositionNotFound` — the storage at
the abort point is exactly the storage at entry: every vault, user position,
arbitrage state, registry and event log is unchanged, because in every
operation all `assert!` checks run before the first mutation. -/
theorem c8_theorem (s s2 : SysState) (op : Op) (now e : Nat)
    (h : runOp s op now = .aborted (.code e) s2) : s2 = s := by
  cases op with
  | depositOp u va c a =>
    simp only [runOp] at h
    obtain ⟨hr, ha⟩ := liftVault_aborted _ _ _ _ h
    exact sys_eq _ _ (deposit_code_state _ _ _ _ _ _ _ _ hr) ha
  | withdrawOp u va c sh =>
    simp only [runOp] at h
    obtain ⟨hr, ha⟩ := liftVault_aborted _ _ _ _ h
    exact sys_eq _ _ (withdraw_code_state _ _ _ _ _ _ _ _ hr) ha
  | harvestOp a va c p =>
    simp only [runOp] at h
    obtain ⟨hr, ha⟩ := liftVault_aborted _ _ _ _ h
    exact sys_eq _ _ (harvest_code_state _ _ _ _ _ _ _ _ hr) ha
  | rebalanceOp va c cp pc =>
    simp only [runOp] at h
    obtain ⟨hr, ha⟩ := liftVault_aborted _ _ _ _ h
    exact sys_eq _ _ (rebalance_code_state _ _ _ _ _ _ _ _ hr) ha
  | pauseOp a va c =>
    simp only [runOp] at h
    obtain ⟨hr, ha⟩ := liftVault_aborted _ _ _ _ h
    exact sys_eq _ _ (pause_code_state _ _ _ _ _ _ hr) ha
  | unpauseOp a va c =>
    simp only [runOp] at h
    obtain ⟨hr, ha⟩ := liftVault_aborted _ _ _ _ h
    exact sys_eq _ _ (unpause_code_state _ _ _ _ _ _ hr) ha
  | updateParamsOp a va c ri tl ms =>
    simp only [runOp] at h
    obtain ⟨hr, ha⟩ := liftVault_aborted _ _ _ _ h
    exact sys_eq _ _ (update_params_code_state _ _ _ _ _ _ _ _ _ hr) ha
  | openArbOp u r m fr sz col ep =>
    simp only [runOp] at h
    obtain ⟨hr, hv⟩ := liftArb_aborted _ _ _ _ h
    exact sys_eq _ _ hv (open_arb_code_state _ _ _ _ _ _ _ _ _ _ _ hr)
  | closeArbOp u r i ep =>
    simp only [runOp] at h
    obtain ⟨hr, hv⟩ := liftArb_aborted _ _ _ _ h
    exact sys_eq _ _ hv (close_arb_code_state _ _ _ _ _ _ _ _ hr)

/-- C8, witness: a zero-amount deposit aborts with `InvalidAmount` and the
combined storage is untouched. -/
theorem c8_witness :
    runOp demoSys (.depositOp 5 1 0 0) 7 = .aborted (.code E_INVALID_AMOUNT) demoSys ∧
    demoSys = demoSys :=
  ⟨rfl, c8_theorem demoSys demoSys (.depositOp 5 1 0 0) 7 E_INVALID_AMOUNT rfl⟩

theorem create_vault_inv {s s2 : VaultState}
    {admin coin st pf mf ri tl ms now : Nat} (hInv : VaultInv s)
    (h : create_vault s admin coin st pf mf ri tl ms now = .ok s2) : VaultInv s2 := by
  unfold create_vault at h
  repeat' (first | split at h | dsimp only at h)
  all_goals cases h
  all_goals intro va2 c2 v2 hv2 hts2
  all_goals simp only [upd2] at hv2
  all_goals split at hv2
  all_goals first
    | exact hInv _ _ _ hv2 hts2
    | (cases hv2; dsimp only at hts2 ⊢; omega)

theorem deposit_ok_inv {s s2 : VaultState} {u va c a t : Nat} (hInv : VaultInv s)
    (h : deposit s u va c a t = .ok s2) : VaultInv s2 := by
  unfold deposit depositRest at h
  repeat' (first | split at h | dsimp only at h)
  all_goals cases h
  all_goals intro va2 c2 v2 hv2 hts2
  all_goals simp only [upd2] at hv2
  all_goals split at hv2
  all_goals first
    | exact hInv _ _ _ hv2 hts2
    | (cases hv2; dsimp only at hts2 ⊢; omega)

theorem harvest_ok_inv {s s2 : VaultState} {a va c p t : Nat} (hInv : VaultInv s)
    (h : harvest s a va c p t = .ok s2) : VaultInv s2 := by
  unfold harvest at h
  cases hv : s.vaults va c with
  | none => rw [hv] at h; cases h
  | some v =>
    rw [hv] at h
    dsimp only at h
    repeat' (first | split at h | dsimp only at h)
    all_goals cases h
    intro va2 c2 v2 hv2 hts2
    simp only [upd2] at hv2
    split at hv2
    · cases hv2
      dsimp only at hts2 ⊢
      have hta := hInv va c v hv hts2
      omega
    · exact hInv _ _ _ hv2 hts2

theorem withdraw_ok_inv {s s2 : VaultState} {u va c sh t : Nat} (hInv : VaultInv s)
    (h : withdraw s u va c sh t = .ok s2) : VaultInv s2 := by
  unfold withdraw at h
  cases hp : s.positions u with
  | none => rw [hp] at h; cases h
  | some p =>
    rw [hp] at h
    dsimp only at h
    by_cases hlt : p.shares < sh
    · rw [if_pos hlt] at h; cases h
    · rw [if_neg hlt] at h
      cases hv : s.vaults va c with
      | none => rw [hv] at h; cases h
      | some v =>
        rw [hv] at h
        dsimp only at h
        by_cases h1 : U64MAX < sh * v.total_assets
        · rw [if_pos h1] at h; cases h
        · rw [if_neg h1] at h
          by_cases h2 : v.total_shares = 0
          · rw [if_pos h2] at h; cases h
          · rw [if_neg h2] at h
            by_cases h3 : v.total_shares < sh
            · rw [if_pos h3] at h; cases h
            · rw [if_neg h3] at h
              by_cases h4 : v.total_assets < sh * v.total_assets / v.total_shares
              · rw [if_pos h4] at h; cases h
              · rw [if_neg h4] at h
                repeat' (first | split at h | dsimp only at h)
                all_goals cases h
                intro va2 c2 v2 hv2 hts2
                simp only [upd2] at hv2
                split at hv2
                · cases hv2
                  dsimp only at hts2 ⊢
                  have hta : v.total_assets ≠ 0 := hInv va c v hv h2
                  have hshlt : sh < v.total_shares := by omega
                  have hdiv : sh * v.total_assets / v.total_shares < v.total_assets := by
                    rw [Nat.div_lt_iff_lt_mul (Nat.pos_of_ne_zero h2)]
                    calc sh * v.total_assets < v.total_shares * v.total_assets :=
                      mul_lt_mul_of_pos_right hshlt (Nat.pos_of_ne_zero hta)
                    _ = v.total_assets * v.total_shares := Nat.mul_comm _ _
                  omega
                · exact hInv _ _ _ hv2 hts2

theorem depositRest_no_divzero (s : VaultState) (v : Vault)
    (u va c a sh t : Nat) (s3 : VaultState) :
    depositRest s v u va c a sh t ≠ .aborted .divByZero s3 := by
  intro h
  unfold depositRest at h
  repeat' (first | split at h | dsimp only at h)
  all_goals cases h

theorem deposit_no_divzero {s : VaultState} (hInv : VaultInv s)
    (u va c a t : Nat) (s3 : VaultState) :
    deposit s u va c a t ≠ .aborted .divByZero s3 := by
  intro h
  unfold deposit at h
  by_cases h0 : a = 0
  · rw [if_pos h0] at h; cases h
  · rw [if_neg h0] at h
    cases hv : s.vaults va c with
    | none => rw [hv] at h; cases h
    | some v =>
      rw [hv] at h
      dsimp only at h
      by_cases hpa : v.paused
      · rw [if_pos hpa] at h; cases h
      · rw [if_neg hpa] at h
        by_cases hts : v.total_shares = 0
        · rw [if_pos hts] at h
          exact depositRest_no_divzero _ _ _ _ _ _ _ _ _ h
        · rw [if_neg hts] at h
          by_cases hmul : U64MAX < a * v.total_shares
          · rw [if_pos hmul] at h; cases h
          · rw [if_neg hmul] at h
            by_cases hta : v.total_assets = 0
            · exact (hInv va c v hv hts) hta
            · rw [if_neg hta] at h
              exact depositRest_no_divzero _ _ _ _ _ _ _ _ _ h

/-- C9.  Implicit invariant: starting from any storage satisfying the vault
solvency invariant (in particular from creation, where a fresh vault has
`total_shares = total_assets = 0`), every state reachable through successful
create/deposit/withdraw/harvest operations keeps, for every stored vault,
`total_shares > 0 → total_assets > 0`; consequently the division by
`total_assets` in deposit's non-bootstrap branch can never divide by zero. -/
theorem c9_theorem (s s2 : VaultState) (h0 : VaultInv s)
    (hr : Relation.ReflTransGen VStep s s2) :
    VaultInv s2 ∧
    ∀ u va coin a t s3, deposit s2 u va coin a t ≠ .aborted .divByZero s3 := by
  have hinv : VaultInv s2 := by
    induction hr with
    | refl => exact h0
    | tail hab hbc ih =>
      cases hbc with
      | create admin coin st2 pf mf ri tl ms now hcv => exact create_vault_inv ih hcv
      | dep u va coin a now hdp => exact deposit_ok_inv ih hdp
      | wd u va coin sh now hwd => exact withdraw_ok_inv ih hwd
      | harv a va coin p now hhv => exact harvest_ok_inv ih hhv
  exact ⟨hinv, fun u va coin a t s3 => deposit_no_divzero hinv u va coin a t s3⟩

/-- C9, witness: from the freshly initialized storage, a deposit can never hit
the division by zero. -/
theorem c9_witness :
    deposit initVS 5 1 0 3 7 ≠ .aborted .divByZero initVS := by
  have h0 : VaultInv initVS := by
    intro va c v hv
    simp [initVS] at hv
  exact (c9_theorem initVS initVS h0 .refl).2 5 1 0 3 7 initVS

/-- C10.  A reachable zero-share mint: create a no-fee vault, deposit 10,
harvest a profit of 20 (shares stay 10, assets become 30, so the share price
is 3); then a further deposit of 2 — with `2 * 10 < 30` — succeeds, mints 0
shares, raises `total_assets` by the full amount to 32 and leaves the
depositor's share balance at 10: the deposit accrues entirely to existing
holders. -/
theorem c10_theorem :
    Relation.ReflTransGen VStep initVS c10sC ∧
    (c10sC.vaults 1 0).map Vault.total_shares = some 10 ∧
    (c10sC.vaults 1 0).map Vault.total_assets = some 30 ∧
    2 * 10 < 30 ∧
    isOk (deposit c10sC 5 1 0 2 20) = true ∧
    ((resState (deposit c10sC 5 1 0 2 20)).vaults 1 0).map Vault.total_shares =
      some 10 ∧
    ((resState (deposit c10sC 5 1 0 2 20)).vaults 1 0).map Vault.total_assets =
      some 32 ∧
    (c10sC.positions 5).map UserPosition.shares = some 10 ∧
    ((resState (deposit c10sC 5 1 0 2 20)).positions 5).map UserPosition.shares =
      some 10 := by
  refine ⟨?_, ?_, ?_, ?_, ?_, ?_, ?_, ?_, ?_⟩
  · exact .tail (.tail (.tail .refl
      (.create initVS c10sA 1 0 1 0 0 100 0 0 0 rfl))
      (.dep c10sA c10sB 5 1 0 10 10 rfl))
      (.harv c10sB c10sC 1 1 0 20 15 rfl)
  all_goals decide

end Zenith
